import Mathlib

/-!
Verification of the binfmt_misc registration manager
(`cmd/binfmt/main.go` and the architecture table / `allArch` of the
repository).  The Go program is shallowly embedded: pure helpers become
Lean functions, the environment and the kernel pseudo-filesystem become
explicit parameters, and every filesystem write the program attempts is
collected in an explicit write list.
-/

namespace Binfmt

/-- Go `config` struct: one architecture entry of the signature table.
`magic` and `mask` hold the raw Go string literals (with their literal
`\xNN` escape text, exactly as written to the kernel register line). -/
structure config where
  binary : String
  magic : String
  mask : String
deriving DecidableEq, Repr

/-- Table entry "amd64" of the Go `configs` map (src/docker-bake.hcl). -/
def cfgAmd64 : config :=
  ⟨"qemu-x86_64",
   "\\x7fELF\\x02\\x01\\x01\\x00\\x00\\x00\\x00\\x00\\x00\\x00\\x00\\x00\\x02\\x00\\x3e\\x00",
   "\\xff\\xff\\xff\\xff\\xff\\xfe\\xfe\\x00\\xff\\xff\\xff\\xff\\xff\\xff\\xff\\xff\\xfe\\xff\\xff\\xff"⟩

/-- Table entry "arm64" of the Go `configs` map (src/docker-bake.hcl). -/
def cfgArm64 : config :=
  ⟨"qemu-aarch64",
   "\\x7fELF\\x02\\x01\\x01\\x00\\x00\\x00\\x00\\x00\\x00\\x00\\x00\\x00\\x02\\x00\\xb7\\x00",
   "\\xff\\xff\\xff\\xff\\xff\\xff\\xff\\x00\\xff\\xff\\xff\\xff\\xff\\xff\\xff\\xff\\xfe\\xff\\xff\\xff"⟩

/-- Table entry "arm" of the Go `configs` map (src/docker-bake.hcl). -/
def cfgArm : config :=
  ⟨"qemu-arm",
   "\\x7fELF\\x01\\x01\\x01\\x00\\x00\\x00\\x00\\x00\\x00\\x00\\x00\\x00\\x02\\x00\\x28\\x00",
   "\\xff\\xff\\xff\\xff\\xff\\xff\\xff\\x00\\xff\\xff\\xff\\xff\\xff\\xff\\xff\\xff\\xfe\\xff\\xff\\xff"⟩

/-- Table entry "s390x" of the Go `configs` map (src/docker-bake.hcl). -/
def cfgS390x : config :=
  ⟨"qemu-s390x",
   "\\x7fELF\\x02\\x02\\x01\\x00\\x00\\x00\\x00\\x00\\x00\\x00\\x00\\x00\\x00\\x02\\x00\\x16",
   "\\xff\\xff\\xff\\xff\\xff\\xff\\xff\\x00\\xff\\xff\\xff\\xff\\xff\\xff\\xff\\xff\\xff\\xfe\\xff\\xff"⟩

/-- Table entry "ppc64le" of the Go `configs` map (src/docker-bake.hcl). -/
def cfgPpc64le : config :=
  ⟨"qemu-ppc64le",
   "\\x7fELF\\x02\\x01\\x01\\x00\\x00\\x00\\x00\\x00\\x00\\x00\\x00\\x00\\x02\\x00\\x15\\x00",
   "\\xff\\xff\\xff\\xff\\xff\\xff\\xff\\x00\\xff\\xff\\xff\\xff\\xff\\xff\\xff\\xff\\xfe\\xff\\xff\\x00"⟩

/-- Table entry "riscv64" of the Go `configs` map (src/docker-bake.hcl). -/
def cfgRiscv64 : config :=
  ⟨"qemu-riscv64",
   "\\x7fELF\\x02\\x01\\x01\\x00\\x00\\x00\\x00\\x00\\x00\\x00\\x00\\x00\\x02\\x00\\xf3\\x00",
   "\\xff\\xff\\xff\\xff\\xff\\xff\\xff\\x00\\xff\\xff\\xff\\xff\\xff\\xff\\xff\\xff\\xfe\\xff\\xff\\xff"⟩

/-- Table entry "386" of the Go `configs` map (src/docker-bake.hcl). -/
def cfg386 : config :=
  ⟨"qemu-i386",
   "\\x7fELF\\x01\\x01\\x01\\x00\\x00\\x00\\x00\\x00\\x00\\x00\\x00\\x00\\x02\\x00\\x03\\x00",
   "\\xff\\xff\\xff\\xff\\xff\\xfe\\xfe\\x00\\xff\\xff\\xff\\xff\\xff\\xff\\xff\\xff\\xfe\\xff\\xff\\xff"⟩

/-- Table entry "mips64le" of the Go `configs` map (src/docker-bake.hcl). -/
def cfgMips64le : config :=
  ⟨"qemu-mips64el",
   "\\x7fELF\\x02\\x01\\x01\\x00\\x00\\x00\\x00\\x00\\x00\\x00\\x00\\x00\\x02\\x00\\x08\\x00",
   "\\xff\\xff\\xff\\xff\\xff\\xff\\xff\\x00\\x00\\xff\\xff\\xff\\xff\\xff\\xff\\xff\\xfe\\xff\\xff\\xff"⟩

/-- Table entry "mips64" of the Go `configs` map (src/docker-bake.hcl). -/
def cfgMips64 : config :=
  ⟨"qemu-mips64",
   "\\x7fELF\\x02\\x02\\x01\\x00\\x00\\x00\\x00\\x00\\x00\\x00\\x00\\x00\\x00\\x02\\x00\\x08",
   "\\xff\\xff\\xff\\xff\\xff\\xff\\xff\\x00\\x00\\xff\\xff\\xff\\xff\\xff\\xff\\xff\\xff\\xfe\\xff\\xff"⟩

/-- Table entry "loong64" of the Go `configs` map (src/docker-bake.hcl). -/
def cfgLoong64 : config :=
  ⟨"qemu-loongarch64",
   "\\x7fELF\\x02\\x01\\x01\\x00\\x00\\x00\\x00\\x00\\x00\\x00\\x00\\x00\\x02\\x00\\x02\\x01",
   "\\xff\\xff\\xff\\xff\\xff\\xff\\xff\\xfc\\x00\\xff\\xff\\xff\\xff\\xff\\xff\\xff\\xfe\\xff\\xff\\xff"⟩

/-- The Go `configs` map, modelled as an association list in source order. -/
def configs : List (String × config) :=
  [("amd64", cfgAmd64),
   ("arm64", cfgArm64),
   ("arm", cfgArm),
   ("s390x", cfgS390x),
   ("ppc64le", cfgPpc64le),
   ("riscv64", cfgRiscv64),
   ("386", cfg386),
   ("mips64le", cfgMips64le),
   ("mips64", cfgMips64),
   ("loong64", cfgLoong64)]

/-- Map lookup `configs[arch]` of the Go code. -/
def configsLookup (arch : String) : Option config :=
  (configs.find? (fun p => p.1 == arch)).map Prod.snd

/-- Value of a hexadecimal digit character. -/
def hexVal (c : Char) : Nat :=
  if 48 ≤ c.toNat ∧ c.toNat ≤ 57 then c.toNat - 48
  else if 97 ≤ c.toNat ∧ c.toNat ≤ 102 then c.toNat - 87
  else if 65 ≤ c.toNat ∧ c.toNat ≤ 70 then c.toNat - 55
  else 0

/-- Decode the `\xNN` escape text of a magic/mask literal into the byte
sequence the kernel matches against; characters outside an escape stand
for their own byte (e.g. `E`, `L`, `F`). -/
def decodeChars : List Char → List Nat
  | '\\' :: 'x' :: h1 :: h2 :: rest => (16 * hexVal h1 + hexVal h2) :: decodeChars rest
  | c :: rest => c.toNat :: decodeChars rest
  | [] => []

/-- Byte sequence denoted by a magic/mask string literal. -/
def decodeEscapes (s : String) : List Nat :=
  decodeChars s.toList

/-- Kernel binfmt_misc matching semantics: a candidate byte sequence `b`
matches a (magic, mask) pair at offset 0 iff it is long enough and every
magic byte agrees with the corresponding candidate byte on the bits the
mask selects. -/
def matchesSig (b magic mask : List Nat) : Prop :=
  magic.length ≤ b.length ∧
    ∀ i, i < magic.length →
      b.getD i 0 &&& mask.getD i 0 = magic.getD i 0 &&& mask.getD i 0

/-- Byte position `i` discriminates two table entries: both masks select
a bit there on which the two magics differ. -/
def conflictAt (c1 c2 : config) (i : Nat) : Bool :=
  decide ((decodeEscapes c1.magic).getD i 0 &&&
            ((decodeEscapes c1.mask).getD i 0 &&& (decodeEscapes c2.mask).getD i 0) ≠
          (decodeEscapes c2.magic).getD i 0 &&&
            ((decodeEscapes c1.mask).getD i 0 &&& (decodeEscapes c2.mask).getD i 0))

/-- Some position inside both signatures discriminates the two entries. -/
def hasConflict (c1 c2 : config) : Bool :=
  (List.range (min (decodeEscapes c1.magic).length (decodeEscapes c2.magic).length)).any
    (conflictAt c1 c2)

/-- The environment variables the program reads; the empty string models
an unset variable (the Go code tests `os.Getenv(x) != ""`). -/
structure Env where
  binaryPath : String
  binaryPfx : String
  preserveArgv0 : String
deriving DecidableEq, Repr

/-- The error message of `getBinaryNames` for a prefixed name containing
a path separator. -/
def pathSepErrMsg : String :=
  "binary prefix must not contain path separator (Hint: set $QEMU_BINARY_PATH to specify the directory)"

/-- `strings.ContainsRune(s, os.PathSeparator)` on Linux. -/
def containsPathSep (s : String) : Bool :=
  s.toList.contains '/'

/-- Go `getBinaryNames` (src/cmd/binfmt/main.go): resolve the registered
base name and full on-disk path of the emulator binary from the
environment. `filepath.Join` on two non-empty clean segments is
concatenation with a slash. -/
def getBinaryNames (env : Env) (cfg : config) : Except String (String × String) :=
  let binaryPath := if env.binaryPath = "" then "/usr/bin" else env.binaryPath
  if env.binaryPfx = "" then
    Except.ok (cfg.binary, binaryPath ++ "/" ++ cfg.binary)
  else if containsPathSep env.binaryPfx then
    Except.error pathSepErrMsg
  else
    Except.ok (env.binaryPfx ++ cfg.binary,
               binaryPath ++ "/" ++ (env.binaryPfx ++ cfg.binary))

/-- Go `allArch` (src/docker-bake.hcl): expansion of the `all` install
selector.  `native` is the set of architectures parsed from the host's
supported platforms (the map `m`), `statOk` tells whether `os.Stat`
succeeds on a path.  An architecture already native is skipped; otherwise
it is appended when its resolved binary exists on disk, or when resolving
the binary name itself fails. -/
def allArch (env : Env) (native : List String) (statOk : String → Bool) : List String :=
  configs.foldl
    (fun out p =>
      if native.contains p.1 then out
      else
        match getBinaryNames env p.2 with
        | Except.ok q => if statOk q.2 then out ++ [p.1] else out
        | Except.error _ => out ++ [p.1])
    []

/-- Outcome of a system call on the kernel pseudo-filesystem, as far as
the program distinguishes it. -/
inductive SysErr where
  | enoent
  | eperm
  | eexist
  | other (msg : String)
deriving DecidableEq, Repr

/-- The kernel side of an `install` call: whether opening the `register`
control file fails, and whether the subsequent write fails. -/
structure KernelFS where
  openErr : Option SysErr
  writeErr : Option SysErr
deriving DecidableEq, Repr

/-- The flags field of a registration record: `"CF"`, plus `"P"` when
`QEMU_PRESERVE_ARGV0` is set to a non-empty value. -/
def installFlags (env : Env) : String :=
  if env.preserveArgv0 = "" then "CF" else "CF" ++ "P"

/-- The colon-delimited registration record composed by `install`
(`fmt.Sprintf(":%s:M:0:%s:%s:%s:%s", ...)`). -/
def registerLine (name magic mask interp flags : String) : String :=
  ":" ++ name ++ ":M:0:" ++ magic ++ ":" ++ mask ++ ":" ++ interp ++ ":" ++ flags

/-- Render a syscall error for the catch-all message branches. -/
def SysErr.msg : SysErr → String
  | SysErr.enoent => "no such file or directory"
  | SysErr.eperm => "operation not permitted"
  | SysErr.eexist => "file exists"
  | SysErr.other m => m

/-- Go `install` (src/cmd/binfmt/main.go): look the architecture up,
open `<mount>/register` write-only, compose the registration record and
write it.  The second component collects every write the call issues on
the register control file (a failed write attempt is still a write). -/
def install (env : Env) (fs : KernelFS) (mnt arch : String) :
    Except String Unit × List String :=
  match configsLookup arch with
  | none => (Except.error ("unsupported architecture: " ++ arch), [])
  | some cfg =>
    match fs.openErr with
    | some SysErr.enoent =>
        (Except.error ("ENOENT opening " ++ (mnt ++ "/register") ++ " is it mounted?"), [])
    | some SysErr.eperm =>
        (Except.error ("EPERM opening " ++ (mnt ++ "/register") ++ " check permissions?"), [])
    | some e =>
        (Except.error ("Cannot open " ++ (mnt ++ "/register") ++ ": " ++ e.msg), [])
    | none =>
      let flags := installFlags env
      match getBinaryNames env cfg with
      | Except.error e => (Except.error e, [])
      | Except.ok names =>
        let line := registerLine names.1 cfg.magic cfg.mask names.2 flags
        match fs.writeErr with
        | some SysErr.eexist =>
            (Except.error (names.1 ++ " already registered"), [line])
        | some e =>
            (Except.error ("cannot register " ++ names.2 ++ " to " ++
              (mnt ++ "/register") ++ ": " ++ e.msg), [line])
        | none => (Except.ok (), [line])

/-- Go `strings.HasSuffix`, as a character-list computation. -/
def hasSuffixStr (s sfx : String) : Bool :=
  sfx.toList.isSuffixOf s.toList

/-- Go `strings.HasPrefix`, as a character-list computation. -/
def hasPrefixStr (s p : String) : Bool :=
  p.toList.isPrefixOf s.toList

/-- The reserved control entries `uninstall` skips. -/
def reservedEntry (n : String) : Bool :=
  n == "register" || n == "status" || n == "WSLInterop"

/-- Go `uninstall` (src/cmd/binfmt/main.go) over the names of the
mount-point directory listing, in directory order.  The second component
collects the writes issued: writing the sentinel `"-1"` to the first
matching non-reserved entry disables it, after which the call returns. -/
def uninstall (arch : String) : List String → Except String Unit × List (String × String)
  | [] => (Except.error "not found", [])
  | n :: rest =>
    if reservedEntry n then uninstall arch rest
    else if n == arch || hasSuffixStr n ("-" ++ arch) then (Except.ok (), [(n, "-1")])
    else uninstall arch rest

/-- Apply a list of (entry, value) writes to a directory content map. -/
def applyWrites : List (String × String) → (String → String) → (String → String)
  | [], c => c
  | w :: rest, c => applyWrites rest (fun m => if m = w.1 then w.2 else c m)

/-- The emulator-collection loop of Go `printStatus`
(src/cmd/binfmt/main.go): over the mount-point directory listing given
as (name, content) pairs, skip `register` and `status` and keep the
names whose content starts with `enabled`. -/
def statusEmulators : List (String × String) → List String
  | [] => []
  | e :: rest =>
    if e.1 == "register" || e.1 == "status" then statusEmulators rest
    else if hasPrefixStr e.2 "enabled" then e.1 :: statusEmulators rest
    else statusEmulators rest

/-- The operations `run` performs after its mount check, recorded as an
abstract trace. -/
inductive RunOp where
  | mountFS
  | unmountFS
  | uninst (n : String)
  | inst (n : String)
  | status
deriving DecidableEq, Repr

/-- The ambient state `run` starts from: the version flag, whether
`os.Stat(<mount>/status)` succeeds (binfmt_misc already mounted), and
the result of the mount system call when attempted. -/
structure World where
  versionFlag : Bool
  statusStatOk : Bool
  mountErr : Option String
deriving DecidableEq, Repr

/-- Go `run` (src/cmd/binfmt/main.go), modelled at orchestration level:
`uninstallTargets` and `installTargets` stand for the already-expanded
target lists (`parseUninstall(toUninstall)` and `allArch()` or
`parseArch(toInstall)`, both consulted only after the mount phase in the
source).  The trace records each operation attempted; per-item outcomes
are logged, not returned, so they do not appear in the result.
`errors.Wrapf(err, msg)` renders as `msg ++ ": " ++ err`. -/
def run (w : World) (mnt : String) (uninstallTargets installTargets : List String) :
    Except String Unit × List RunOp :=
  if w.versionFlag then (Except.ok (), [])
  else
    let tail := uninstallTargets.map RunOp.uninst ++
      installTargets.map RunOp.inst ++ [RunOp.status]
    if w.statusStatOk then (Except.ok (), tail)
    else
      match w.mountErr with
      | some e =>
          (Except.error ("cannot mount binfmt_misc filesystem at " ++ mnt ++ ": " ++ e),
           [RunOp.mountFS])
      | none => (Except.ok (), RunOp.mountFS :: tail ++ [RunOp.unmountFS])

/-- Go `main` (src/cmd/binfmt/main.go): call `run`, log
`"error: %+v"` when it fails, and return.  `main` calls `os.Exit` on no
path, and a Go process whose `main` returns normally exits with status
0, so the model yields the process exit status and the log lines. -/
def mainRun (r : Except String Unit) : Nat × List String :=
  match r with
  | Except.ok _ => (0, [])
  | Except.error e => (0, ["error: " ++ e])

/-- A discriminating position rules out any byte sequence matching both
signatures. -/
theorem hasConflict_no_common_match (c1 c2 : config) (h : hasConflict c1 c2 = true) :
    ∀ b : List Nat,
      ¬(matchesSig b (decodeEscapes c1.magic) (decodeEscapes c1.mask) ∧
        matchesSig b (decodeEscapes c2.magic) (decodeEscapes c2.mask)) := by
  intro b hm
  obtain ⟨⟨-, h1⟩, -, h2⟩ := hm
  rw [hasConflict, List.any_eq_true] at h
  obtain ⟨i, hi, hc⟩ := h
  rw [List.mem_range, lt_min_iff] at hi
  rw [conflictAt, decide_eq_true_eq] at hc
  apply hc
  have e1 := h1 i hi.1
  have e2 := h2 i hi.2
  calc (decodeEscapes c1.magic).getD i 0 &&&
        ((decodeEscapes c1.mask).getD i 0 &&& (decodeEscapes c2.mask).getD i 0)
      = ((decodeEscapes c1.magic).getD i 0 &&& (decodeEscapes c1.mask).getD i 0) &&&
        (decodeEscapes c2.mask).getD i 0 := (Nat.land_assoc _ _ _).symm
    _ = (b.getD i 0 &&& (decodeEscapes c1.mask).getD i 0) &&&
        (decodeEscapes c2.mask).getD i 0 := by rw [e1]
    _ = (b.getD i 0 &&& (decodeEscapes c2.mask).getD i 0) &&&
        (decodeEscapes c1.mask).getD i 0 := by
          rw [Nat.land_assoc, Nat.land_assoc,
            Nat.land_comm ((decodeEscapes c1.mask).getD i 0) ((decodeEscapes c2.mask).getD i 0)]
    _ = ((decodeEscapes c2.magic).getD i 0 &&& (decodeEscapes c2.mask).getD i 0) &&&
        (decodeEscapes c1.mask).getD i 0 := by rw [e2]
    _ = (decodeEscapes c2.magic).getD i 0 &&&
        ((decodeEscapes c1.mask).getD i 0 &&& (decodeEscapes c2.mask).getD i 0) := by
          rw [Nat.land_assoc,
            Nat.land_comm ((decodeEscapes c2.mask).getD i 0) ((decodeEscapes c1.mask).getD i 0)]

/-- Every ordered pair of distinct table entries has a discriminating
position; checked by evaluation over the whole table. -/
theorem configs_hasConflict_table :
    ∀ p, p ∈ configs → ∀ q, q ∈ configs → p.1 ≠ q.1 → hasConflict p.2 q.2 = true := by
  decide

/-- C2: for every two distinct entries of the signature table, no byte
sequence matches both entries' decoded (magic, mask) pairs: the
masked-magic predicates are pairwise disjoint across the whole table. -/
theorem configs_pairwise_unambiguous :
    ∀ n1 c1 n2 c2, (n1, c1) ∈ configs → (n2, c2) ∈ configs → n1 ≠ n2 →
      ∀ b : List Nat,
        ¬(matchesSig b (decodeEscapes c1.magic) (decodeEscapes c1.mask) ∧
          matchesSig b (decodeEscapes c2.magic) (decodeEscapes c2.mask)) := by
  intro n1 c1 n2 c2 h1 h2 hne
  exact hasConflict_no_common_match c1 c2
    (configs_hasConflict_table (n1, c1) h1 (n2, c2) h2 hne)

/-- Witness for C2 at the (amd64, arm64) pair and the all-zero candidate. -/
theorem configs_pairwise_unambiguous_w :
    ¬(matchesSig (List.replicate 20 0) (decodeEscapes cfgAmd64.magic)
        (decodeEscapes cfgAmd64.mask) ∧
      matchesSig (List.replicate 20 0) (decodeEscapes cfgArm64.magic)
        (decodeEscapes cfgArm64.mask)) :=
  configs_pairwise_unambiguous "amd64" cfgAmd64 "arm64" cfgArm64
    (by decide) (by decide) (by decide) (List.replicate 20 0)

/-- C4: every entry of the signature table has a decoded magic byte
sequence and a decoded mask byte sequence of equal length. -/
theorem configs_magic_mask_same_length :
    ∀ p, p ∈ configs →
      (decodeEscapes p.2.magic).length = (decodeEscapes p.2.mask).length := by
  decide

/-- Witness for C4 at the amd64 entry. -/
theorem configs_magic_mask_same_length_w :
    (decodeEscapes cfgAmd64.magic).length = (decodeEscapes cfgAmd64.mask).length :=
  configs_magic_mask_same_length ("amd64", cfgAmd64) (by decide)

/-- C1 (refuting evaluation): with an unset environment, no native
platform and no emulator binary present on disk, `allArch` returns the
empty list, although `riscv64` is a table architecture outside the
native set whose binary-name resolution succeeds.  Architectures whose
resolved binary is missing are therefore silently dropped, not kept for
a per-item install diagnostic. -/
theorem allArch_drops_missing_binaries :
    allArch ⟨"", "", ""⟩ [] (fun _ => false) = [] ∧
    allArch ⟨"", "", ""⟩ [] (fun _ => true) = configs.map Prod.fst ∧
    getBinaryNames ⟨"", "", ""⟩ cfgRiscv64 =
      Except.ok ("qemu-riscv64", "/usr/bin/qemu-riscv64") ∧
    ("riscv64", cfgRiscv64) ∈ configs ∧
    configs.length = 10 :=
  ⟨by decide, by decide, rfl, by decide, by decide⟩

/-- C3: for every supported architecture (and any environment and
kernel state in which the register control file opens), `install`
composes and writes exactly one registration record
`:<name>:M:0:<magic>:<mask>:<interpreterPath>:<flags>` — the offset
field is the literal `0` — and the flags are exactly `CF` when
`QEMU_PRESERVE_ARGV0` is empty and exactly `CFP` when it is non-empty. -/
theorem install_writes_single_record (env : Env) (fs : KernelFS) (mnt arch : String)
    (cfg : config) (names : String × String)
    (hcfg : configsLookup arch = some cfg)
    (hopen : fs.openErr = none)
    (hres : getBinaryNames env cfg = Except.ok names) :
    (install env fs mnt arch).2 =
      [":" ++ names.1 ++ ":M:0:" ++ cfg.magic ++ ":" ++ cfg.mask ++ ":" ++ names.2 ++
        ":" ++ installFlags env] ∧
    (env.preserveArgv0 = "" → installFlags env = "CF") ∧
    (env.preserveArgv0 ≠ "" → installFlags env = "CFP") := by
  refine ⟨?_, fun h => by simp [installFlags, h], fun h => by simp [installFlags, h]⟩
  obtain ⟨oe, we⟩ := fs
  simp only at hopen
  subst hopen
  simp only [install, hcfg, hres, registerLine]
  cases we with
  | none => rfl
  | some e => cases e <;> rfl

/-- Witness for C3: arm64, default environment, healthy kernel state. -/
theorem install_writes_single_record_w :
    (install ⟨"", "", ""⟩ ⟨none, none⟩ "/proc/sys/fs/binfmt_misc" "arm64").2 =
      [":" ++ "qemu-aarch64" ++ ":M:0:" ++ cfgArm64.magic ++ ":" ++ cfgArm64.mask ++
        ":" ++ "/usr/bin/qemu-aarch64" ++ ":" ++ installFlags ⟨"", "", ""⟩] ∧
    ((⟨"", "", ""⟩ : Env).preserveArgv0 = "" → installFlags ⟨"", "", ""⟩ = "CF") ∧
    ((⟨"", "", ""⟩ : Env).preserveArgv0 ≠ "" → installFlags ⟨"", "", ""⟩ = "CFP") :=
  install_writes_single_record ⟨"", "", ""⟩ ⟨none, none⟩ "/proc/sys/fs/binfmt_misc" "arm64"
    cfgArm64 ("qemu-aarch64", "/usr/bin/qemu-aarch64") (by decide) rfl rfl

/-- A string containing a path separator is non-empty. -/
theorem containsPathSep_ne_empty (s : String) (h : containsPathSep s = true) : s ≠ "" := by
  intro he
  subst he
  simp [containsPathSep] at h

/-- C6: when the configured binary prefix contains a path separator,
`getBinaryNames` returns the configuration error for every table entry,
and `install` issues no write to the register control file regardless of
the architecture and kernel state. -/
theorem pathsep_pfx_blocks_install (env : Env)
    (h : containsPathSep env.binaryPfx = true) :
    (∀ cfg : config, getBinaryNames env cfg = Except.error pathSepErrMsg) ∧
    (∀ fs : KernelFS, ∀ mnt arch : String, (install env fs mnt arch).2 = []) := by
  have hne : env.binaryPfx ≠ "" := containsPathSep_ne_empty _ h
  have hg : ∀ cfg : config, getBinaryNames env cfg = Except.error pathSepErrMsg := by
    intro cfg
    simp only [getBinaryNames, if_neg hne, if_pos h]
  refine ⟨hg, fun fs mnt arch => ?_⟩
  cases hcfg : configsLookup arch with
  | none => simp [install, hcfg]
  | some cfg =>
    cases hoe : fs.openErr with
    | none => simp [install, hcfg, hoe, hg cfg]
    | some e => cases e <;> simp [install, hcfg, hoe]

/-- Witness for C6 with prefix `../`. -/
theorem pathsep_pfx_blocks_install_w :
    (∀ cfg : config,
      getBinaryNames ⟨"", "../", ""⟩ cfg = Except.error pathSepErrMsg) ∧
    (∀ fs : KernelFS, ∀ mnt arch : String,
      (install ⟨"", "../", ""⟩ fs mnt arch).2 = []) :=
  pathsep_pfx_blocks_install ⟨"", "../", ""⟩ (by decide)

/-- C5: `uninstall` considers a non-reserved entry a match iff its name
equals the target or ends with `-<target>`, writes the deregistration
sentinel `-1` to exactly the first such entry in directory order, and
performs no other write; with no match it writes nothing. -/
theorem uninstall_first_match_only (arch : String) (entries : List String) :
    uninstall arch entries =
      match entries.find?
          (fun n => !reservedEntry n && (n == arch || hasSuffixStr n ("-" ++ arch))) with
      | some n => (Except.ok (), [(n, "-1")])
      | none => (Except.error "not found", []) := by
  induction entries with
  | nil => rfl
  | cons n rest ih =>
    cases hr : reservedEntry n with
    | true => simp [uninstall, List.find?, hr, ih]
    | false =>
      cases hm : (n == arch || hasSuffixStr n ("-" ++ arch)) with
      | true => simp [uninstall, List.find?, hr, hm]
      | false => simp [uninstall, List.find?, hr, hm, ih]

/-- C8: `uninstall` on a target with no matching directory entry returns
the "not found" error and issues no write, so any directory content map
— and hence any status snapshot derived from it — is unchanged. -/
theorem uninstall_no_match_no_write (arch : String) (entries : List String)
    (h : ∀ n, n ∈ entries → reservedEntry n = true ∨
        (n ≠ arch ∧ hasSuffixStr n ("-" ++ arch) = false)) :
    uninstall arch entries = (Except.error "not found", []) ∧
    ∀ contents : String → String,
      applyWrites (uninstall arch entries).2 contents = contents := by
  have he : uninstall arch entries = (Except.error "not found", []) := by
    induction entries with
    | nil => rfl
    | cons n rest ih =>
      rcases h n (List.mem_cons_self n rest) with hr | ⟨hne, hsuf⟩
      · simpa [uninstall, hr] using ih (fun m hm => h m (List.mem_cons_of_mem n hm))
      · cases hr : reservedEntry n with
        | true => simpa [uninstall, hr] using ih (fun m hm => h m (List.mem_cons_of_mem n hm))
        | false =>
          simpa [uninstall, hr, hne, hsuf] using
            ih (fun m hm => h m (List.mem_cons_of_mem n hm))
  exact ⟨he, fun contents => by rw [he]; rfl⟩

/-- Witness for C8: target `aarch64` against a directory holding only
reserved entries and `qemu-arm`. -/
theorem uninstall_no_match_no_write_w :
    uninstall "aarch64" ["register", "status", "qemu-arm"] =
      (Except.error "not found", []) ∧
    ∀ contents : String → String,
      applyWrites (uninstall "aarch64" ["register", "status", "qemu-arm"]).2 contents =
        contents :=
  uninstall_no_match_no_write "aarch64" ["register", "status", "qemu-arm"] (by decide)

/-- C9: a name is listed among the status snapshot's emulators iff it
is not `register` or `status` and some directory entry of that name has
content beginning with the literal token `enabled`. -/
theorem statusEmulators_mem_iff (entries : List (String × String)) (n : String) :
    n ∈ statusEmulators entries ↔
      n ≠ "register" ∧ n ≠ "status" ∧
        ∃ c, (n, c) ∈ entries ∧ hasPrefixStr c "enabled" = true := by
  induction entries with
  | nil => simp [statusEmulators]
  | cons e rest ih =>
    obtain ⟨m, c⟩ := e
    cases h1 : (m == "register" || m == "status") with
    | true =>
      have hm : m = "register" ∨ m = "status" := by
        rcases Bool.or_eq_true_iff.mp h1 with h | h
        · exact Or.inl (eq_of_beq h)
        · exact Or.inr (eq_of_beq h)
      have hstep : statusEmulators ((m, c) :: rest) = statusEmulators rest := by
        simp [statusEmulators, h1]
      rw [hstep, ih]
      constructor
      · rintro ⟨hn1, hn2, d, hd, hdp⟩
        exact ⟨hn1, hn2, d, List.mem_cons_of_mem _ hd, hdp⟩
      · rintro ⟨hn1, hn2, d, hd, hdp⟩
        rcases List.mem_cons.mp hd with heq | hmem
        · have hnm : n = m := congrArg Prod.fst heq
          rcases hm with rfl | rfl
          · exact absurd hnm hn1
          · exact absurd hnm hn2
        · exact ⟨hn1, hn2, d, hmem, hdp⟩
    | false =>
      have hm1 : m ≠ "register" := by
        intro hc; subst hc; simp at h1
      have hm2 : m ≠ "status" := by
        intro hc; subst hc; simp at h1
      cases h2 : hasPrefixStr c "enabled" with
      | true =>
        have hstep : statusEmulators ((m, c) :: rest) = m :: statusEmulators rest := by
          simp [statusEmulators, h1, h2]
        rw [hstep]
        constructor
        · intro hin
          rcases List.mem_cons.mp hin with rfl | hin2
          · exact ⟨hm1, hm2, c, List.mem_cons_self _ _, h2⟩
          · obtain ⟨hn1, hn2, d, hd, hdp⟩ := ih.mp hin2
            exact ⟨hn1, hn2, d, List.mem_cons_of_mem _ hd, hdp⟩
        · rintro ⟨hn1, hn2, d, hd, hdp⟩
          rcases List.mem_cons.mp hd with heq | hmem
          · exact List.mem_cons.mpr (Or.inl (congrArg Prod.fst heq))
          · exact List.mem_cons.mpr (Or.inr (ih.mpr ⟨hn1, hn2, d, hmem, hdp⟩))
      | false =>
        have hstep : statusEmulators ((m, c) :: rest) = statusEmulators rest := by
          simp [statusEmulators, h1, h2]
        rw [hstep, ih]
        constructor
        · rintro ⟨hn1, hn2, d, hd, hdp⟩
          exact ⟨hn1, hn2, d, List.mem_cons_of_mem _ hd, hdp⟩
        · rintro ⟨hn1, hn2, d, hd, hdp⟩
          rcases List.mem_cons.mp hd with heq | hmem
          · have hdc : d = c := congrArg Prod.snd heq
            rw [hdc, h2] at hdp
            exact absurd hdp (by simp)
          · exact ⟨hn1, hn2, d, hmem, hdp⟩

/-- C7: when the status marker is absent and the mount system call
fails, `run` returns the error wrapping the underlying system error and
the mount point path, and its trace attempts no uninstall, install or
status operation. -/
theorem run_mount_failure_fatal (w : World) (mnt : String)
    (uninstallTargets installTargets : List String) (e : String)
    (hv : w.versionFlag = false) (hs : w.statusStatOk = false)
    (hm : w.mountErr = some e) :
    run w mnt uninstallTargets installTargets =
      (Except.error ("cannot mount binfmt_misc filesystem at " ++ mnt ++ ": " ++ e),
       [RunOp.mountFS]) ∧
    (∀ n, RunOp.uninst n ∉ (run w mnt uninstallTargets installTargets).2 ∧
          RunOp.inst n ∉ (run w mnt uninstallTargets installTargets).2) ∧
    RunOp.status ∉ (run w mnt uninstallTargets installTargets).2 := by
  have he : run w mnt uninstallTargets installTargets =
      (Except.error ("cannot mount binfmt_misc filesystem at " ++ mnt ++ ": " ++ e),
       [RunOp.mountFS]) := by
    simp [run, hv, hs, hm]
  refine ⟨he, fun n => ⟨?_, ?_⟩, ?_⟩ <;> rw [he] <;> simp

/-- Witness for C7 with a concrete failing mount. -/
theorem run_mount_failure_fatal_w :
    run ⟨false, false, some "operation not permitted"⟩ "/proc/sys/fs/binfmt_misc"
        ["arm64"] ["amd64"] =
      (Except.error ("cannot mount binfmt_misc filesystem at " ++
        "/proc/sys/fs/binfmt_misc" ++ ": " ++ "operation not permitted"),
       [RunOp.mountFS]) ∧
    (∀ n, RunOp.uninst n ∉
        (run ⟨false, false, some "operation not permitted"⟩ "/proc/sys/fs/binfmt_misc"
          ["arm64"] ["amd64"]).2 ∧
      RunOp.inst n ∉
        (run ⟨false, false, some "operation not permitted"⟩ "/proc/sys/fs/binfmt_misc"
          ["arm64"] ["amd64"]).2) ∧
    RunOp.status ∉
      (run ⟨false, false, some "operation not permitted"⟩ "/proc/sys/fs/binfmt_misc"
        ["arm64"] ["amd64"]).2 :=
  run_mount_failure_fatal ⟨false, false, some "operation not permitted"⟩
    "/proc/sys/fs/binfmt_misc" ["arm64"] ["amd64"] "operation not permitted" rfl rfl rfl

/-- C10: whatever `run` returns — success or any error, including a
fatal mount failure — `main` exits with process status 0; an error is
only reflected in the log line. -/
theorem main_exit_status_zero (r : Except String Unit) :
    (mainRun r).1 = 0 ∧
    ∀ e, r = Except.error e → (mainRun r).2 = ["error: " ++ e] := by
  cases r with
  | ok u => exact ⟨rfl, fun e he => by cases he⟩
  | error e0 =>
    refine ⟨rfl, fun e he => ?_⟩
    cases he
    rfl

/-- Witness for C10 at a concrete failed run. -/
theorem main_exit_status_zero_w :
    (mainRun (Except.error "mount failed")).1 = 0 ∧
    (mainRun (Except.error "mount failed")).2 = ["error: " ++ "mount failed"] :=
  ⟨(main_exit_status_zero (Except.error "mount failed")).1,
   (main_exit_status_zero (Except.error "mount failed")).2 "mount failed" rfl⟩

end Binfmt
